import Mathlib

/-!
Verification of the `stackbloatless` main application shell
(`src/gui/main_window.rs`), a relm4/GTK event-dispatch component.

The GUI toolkit objects are embedded as explicit state:
an `adw::TabView` becomes a list of pages (each page carrying an identity,
a rendered content block, a title, a pinned flag and a selected flag)
together with a fresh-id counter; the widget set `AppWidgets` and the model
`AppModel` become structures; the async handler `update_with_view` becomes a
step function from state and input message to an outcome that is either the
next state (plus the externally visible effects: dialogs shown, quit
requested, about window presented) or an abort at an `unwrap` panic,
carrying the state at the moment of the abort.

The StackExchange API client is an external collaborator: its fetch
operation `get_questions_from_uri` is passed as an oracle
`fetch : Nat → String → Except String (List Question)` applied to the
client handle stored in the model, so that theorems can quantify over its
outcomes.  The rendering helper `componant_builders::st_question` is
likewise external and is embedded as an injective constructor from
questions to content blocks.
-/

/-- A StackExchange question as consumed by the shell: the handler reads its
`title` and hands the whole value to the rendering helper. -/
structure Question where
  title : String
  body : String
  deriving Repr, DecidableEq

/-- A rendered content block, the result of `componant_builders::st_question`.
Rendering is external to the shell; the block is modelled as a tagged copy of
the question it was rendered from. -/
structure ContentBox where
  source : Question
  deriving Repr, DecidableEq

/-- Embedding of `componant_builders::st_question`: renders a question into a content
block (external collaborator, embedded abstractly). -/
def st_question (question : Question) : ContentBox :=
  { source := question }

/-- One `adw::TabPage` of the tab view.  `id` models the GTK object identity
of the page; `content` is the child widget (the scrolled window wrapping the
rendered question box); `pinned` and `selected` are the page flags. -/
structure TabPage where
  id : Nat
  content : ContentBox
  title : String
  pinned : Bool
  selected : Bool
  deriving Repr, DecidableEq

/-- The `adw::TabView`: an ordered list of pages plus a counter supplying
fresh page identities for `append`. -/
structure TabView where
  pages : List TabPage
  next_id : Nat
  deriving Repr, DecidableEq

namespace TabView

/-- Embedding of `adw::TabView::selected_page`: the selected page, if any. -/
def selected_page (tv : TabView) : Option TabPage :=
  tv.pages.find? (fun p => p.selected)

/-- Embedding of `adw::TabView::append`: appends a new page holding the given child at
the end of the tab strip.  The new page starts untitled, unpinned and
unselected; the page (here: its identity) is returned alongside the view. -/
def append (tv : TabView) (content : ContentBox) : TabView × Nat :=
  ({ pages :=
       tv.pages ++
         [{ id := tv.next_id, content := content, title := ""
            pinned := false, selected := false }]
     next_id := tv.next_id + 1 },
   tv.next_id)

/-- Embedding of `adw::TabPage::set_title` on the page with the given identity. -/
def set_title (tv : TabView) (pid : Nat) (title : String) : TabView :=
  { tv with
    pages := tv.pages.map (fun p =>
      if p.id = pid then { p with title := title } else p) }

/-- Embedding of `adw::TabView::set_page_pinned` on the page with the given identity. -/
def set_page_pinned (tv : TabView) (pid : Nat) (pinned : Bool) : TabView :=
  { tv with
    pages := tv.pages.map (fun p =>
      if p.id = pid then { p with pinned := pinned } else p) }

/-- Embedding of `adw::TabView::close_page`: removes the page with the given identity. -/
def close_page (tv : TabView) (pid : Nat) : TabView :=
  { tv with pages := tv.pages.filter (fun p => p.id ≠ pid) }

/-- Embedding of `adw::TabView::set_selected_page`: selects the page with the given
identity; every other page becomes unselected. -/
def set_selected_page (tv : TabView) (pid : Nat) : TabView :=
  { tv with
    pages := tv.pages.map (fun p => { p with selected := p.id = pid }) }

/-- Whether a page with the given identity is in the view. -/
def has_page (tv : TabView) (pid : Nat) : Bool :=
  tv.pages.any (fun p => p.id = pid)

/-- Well-formedness of the embedding: page identities are pairwise distinct
and below the fresh-id counter.  GTK object identities are distinct by
construction; the counter bound keeps `append` from reusing one. -/
def WF (tv : TabView) : Prop :=
  (tv.pages.map (fun p => p.id)).Nodup ∧ ∀ p ∈ tv.pages, p.id < tv.next_id

instance : DecidablePred WF := fun tv => by
  unfold WF
  infer_instance

/-- At most one page of the view is selected. -/
def AtMostOneSelected (tv : TabView) : Prop :=
  tv.pages.countP (fun p => p.selected) ≤ 1

instance : DecidablePred AtMostOneSelected := fun tv => by
  unfold AtMostOneSelected
  infer_instance

end TabView

/-- The input message enumeration `AppInput` of the shell. -/
inductive AppInput where
  | RequestPagesByUri (uri : String)
  | ToggleSearchEntry
  | ShowAboutWindow
  | Quit
  | ToggleSelectedTabPin
  | CloseTab
  | ClosePinnedTab
  deriving Repr, DecidableEq

/-- Which widget currently occupies the header bar title slot. -/
inductive HeaderTitle where
  | titleWidget
  | searchEntry
  deriving Repr, DecidableEq

/-- The widget state `AppWidgets` touched by the handlers: the tab view, the
search toggle button, the search entry (text and visibility) and the header
bar title slot. -/
structure AppWidgets where
  tab_view : TabView
  search_button_active : Bool
  search_entry_text : String
  search_entry_visible : Bool
  header_title : HeaderTitle
  deriving Repr, DecidableEq

/-- The component model `AppModel`: it owns exactly one StackExchange client
handle, embedded as an opaque numeric identity. -/
structure AppModel where
  stackexchange_client : Nat
  deriving Repr, DecidableEq

/-- Embedding of `stackexchange::StackExchange::new()`: the client handle created at
component init. -/
def StackExchange.new : Nat := 0

/-- The model as built in `AppModel::init`: a single freshly created client. -/
def AppModel.init : AppModel :=
  { stackexchange_client := StackExchange.new }

/-- The confirmation dialog built by the `CloseTab` handler for a pinned
tab (`adw::MessageDialog`), with its heading, body, responses and default
response as in the source. -/
structure MessageDialog where
  heading : String
  body : String
  responses : List (String × String)
  defaultResponse : Option String
  deriving Repr, DecidableEq

/-- The pinned-tab confirmation dialog of the `CloseTab` handler. -/
def close_pinned_dialog : MessageDialog :=
  { heading := "Close pinned tab?"
    body := "Do you really want to close a pinned tab?"
    responses := [("yes", "Yes"), ("no", "No")]
    defaultResponse := some "no" }

/-- The `connect_response` closure on the confirmation dialog: the inputs it
sends back to the component for a given response id, and whether it closes
the dialog (it always does). -/
def dialog_response (response : String) : List AppInput × Bool :=
  (if response = "yes" then [AppInput.ClosePinnedTab] else [], true)

/-- Externally visible effects of one handler invocation: dialogs shown,
whether `main_application().quit()` was called, and whether the about
window was presented. -/
structure Effects where
  dialogs : List MessageDialog
  quitRequested : Bool
  aboutShown : Bool
  deriving Repr, DecidableEq

/-- No effects. -/
def Effects.none : Effects :=
  { dialogs := [], quitRequested := false, aboutShown := false }

/-- Outcome of one `update_with_view` invocation: either the next state with
its effects, or an abort at an `unwrap` panic, carrying the (unchanged up to
that point) state at the moment of the abort. -/
inductive StepOutcome where
  | ok (model : AppModel) (widgets : AppWidgets) (eff : Effects)
  | aborted (model : AppModel) (widgets : AppWidgets)
  deriving Repr, DecidableEq

/-- Whether the outcome is a normal completion. -/
def StepOutcome.isOk : StepOutcome → Bool
  | .ok _ _ _ => true
  | .aborted _ _ => false

/-- The tab view in the resulting state, for either outcome. -/
def StepOutcome.tabView : StepOutcome → TabView
  | .ok _ w _ => w.tab_view
  | .aborted _ w => w.tab_view

/-- The model in the resulting state, for either outcome. -/
def StepOutcome.model : StepOutcome → AppModel
  | .ok m _ _ => m
  | .aborted m _ => m

/-- The body of the `for question in questions` loop of the
`RequestPagesByUri` handler: render the question, append a tab page holding
it, and set the page title to the question title. -/
def append_question_tab (tv : TabView) (question : Question) : TabView :=
  let question_box := st_question question
  let appended := tv.append question_box
  TabView.set_title appended.1 appended.2 question.title

/-- Embedding of `AppModel::update_with_view`: dispatch of one input message, with the
fetch operation of the owned StackExchange client passed as an oracle
`fetch` applied to the client handle. -/
def update_with_view (fetch : Nat → String → Except String (List Question))
    (model : AppModel) (widgets : AppWidgets) (message : AppInput) :
    StepOutcome :=
  match message with
  | .RequestPagesByUri uri =>
    match fetch model.stackexchange_client uri with
    | .error _ => .aborted model widgets
    | .ok questions =>
      .ok model
        { widgets with
          tab_view := questions.foldl append_question_tab widgets.tab_view }
        Effects.none
  | .ToggleSearchEntry =>
    if widgets.search_button_active then
      .ok model
        { widgets with
          header_title := .searchEntry, search_entry_visible := true }
        Effects.none
    else
      .ok model
        { widgets with
          search_entry_visible := false, header_title := .titleWidget }
        Effects.none
  | .ShowAboutWindow =>
    .ok model widgets { Effects.none with aboutShown := true }
  | .Quit =>
    .ok model widgets { Effects.none with quitRequested := true }
  | .ToggleSelectedTabPin =>
    match widgets.tab_view.selected_page with
    | Option.none => .aborted model widgets
    | some selected_page =>
      .ok model
        { widgets with
          tab_view :=
            widgets.tab_view.set_page_pinned selected_page.id
              (!selected_page.pinned) }
        Effects.none
  | .CloseTab =>
    match widgets.tab_view.selected_page with
    | Option.none => .aborted model widgets
    | some selected_page =>
      if selected_page.pinned then
        .ok model widgets { Effects.none with dialogs := [close_pinned_dialog] }
      else
        .ok model
          { widgets with
            tab_view := widgets.tab_view.close_page selected_page.id }
          Effects.none
  | .ClosePinnedTab =>
    match widgets.tab_view.selected_page with
    | Option.none => .aborted model widgets
    | some selected_page =>
      let tv1 := widgets.tab_view.set_page_pinned selected_page.id false
      .ok model
        { widgets with tab_view := tv1.close_page selected_page.id }
        Effects.none

/-- The `connect_setup_menu` closure: when the tab context menu is set up on
a page, that page becomes the selected page; with no page, nothing happens. -/
def setup_menu (tv : TabView) (page : Option Nat) : TabView :=
  match page with
  | some pid => tv.set_selected_page pid
  | Option.none => tv

/-- Embedding of `gtk::Editable::delete_text(start_pos, end_pos)` on the search entry
text: removes the characters of positions `[start_pos, end_pos)`. -/
def delete_text (s : String) (start_pos end_pos : Nat) : String :=
  String.mk (s.toList.take start_pos ++ s.toList.drop end_pos)

/-- The `connect_activate` closure of the search entry: reads the entry
text, sends one `RequestPagesByUri` with the stackexchange URI built from
it, then deletes the first `search_term.len()` (UTF-8 byte length, as Rust
`str::len`) character positions from the entry.  Returns the sent inputs
and the new entry text. -/
def search_entry_activate (text : String) : List AppInput × String :=
  ([AppInput.RequestPagesByUri ("stackexchange://stackoverflow/" ++ text)],
   delete_text text 0 text.utf8ByteSize)

/-- Runs a sequence of input messages through `update_with_view`, stopping
at the first abort. -/
def run (fetch : Nat → String → Except String (List Question))
    (model : AppModel) (widgets : AppWidgets) :
    List AppInput → StepOutcome
  | [] => .ok model widgets Effects.none
  | message :: rest =>
    match update_with_view fetch model widgets message with
    | .ok m w _ => run fetch m w rest
    | .aborted m w => .aborted m w

/-- The pages appended by the `RequestPagesByUri` loop for a question list,
given the fresh-id counter at loop entry: one page per question, in list
order, each carrying the rendered question and titled with the question
title. -/
def fresh_pages : Nat → List Question → List TabPage
  | _, [] => []
  | n, q :: qs =>
    { id := n, content := st_question q, title := q.title,
      pinned := false, selected := false } :: fresh_pages (n + 1) qs

/-! ## Concrete sample states, used to evaluate the theorems below -/

/-- A sample question. -/
def sample_q1 : Question := { title := "alpha", body := "first question" }

/-- A second sample question. -/
def sample_q2 : Question := { title := "beta", body := "second question" }

/-- A pinned, selected sample tab page. -/
def sample_page_pinned : TabPage :=
  { id := 0, content := st_question sample_q1, title := "alpha",
    pinned := true, selected := true }

/-- An unpinned, unselected sample tab page. -/
def sample_page_plain : TabPage :=
  { id := 1, content := st_question sample_q2, title := "beta",
    pinned := false, selected := false }

/-- A sample tab view whose selected page is pinned. -/
def sample_tv : TabView :=
  { pages := [sample_page_pinned, sample_page_plain], next_id := 2 }

/-- A sample tab view whose selected page is not pinned. -/
def sample_tv_plain : TabView :=
  { pages := [{ sample_page_plain with selected := true }], next_id := 2 }

/-- An empty sample tab view. -/
def sample_tv_empty : TabView := { pages := [], next_id := 0 }

/-- Widgets built around a given tab view. -/
def base_widgets (tv : TabView) : AppWidgets :=
  { tab_view := tv, search_button_active := false, search_entry_text := ""
    search_entry_visible := false, header_title := HeaderTitle.titleWidget }

/-- A fetch oracle that always fails. -/
def fetch_failing : Nat → String → Except String (List Question) :=
  fun _ _ => Except.error "connection failed"

/-- A fetch oracle that always returns the two sample questions. -/
def fetch_two : Nat → String → Except String (List Question) :=
  fun _ _ => Except.ok [sample_q1, sample_q2]

/-! ## Supporting lemmas -/

theorem length_le_utf8ByteSize (s : String) : s.toList.length ≤ s.utf8ByteSize := by
  cases s with
  | mk data =>
    show data.length ≤ String.utf8ByteSize ⟨data⟩
    rw [String.utf8ByteSize_mk]
    induction data with
    | nil => simp
    | cons c cs ih =>
      have hc := Char.utf8Size_pos c
      simp only [String.utf8Len_cons, List.length_cons]
      omega

namespace TabView

theorem selected_page_mem {tv : TabView} {p : TabPage}
    (h : tv.selected_page = some p) : p ∈ tv.pages ∧ p.selected = true :=
  ⟨List.mem_of_find?_eq_some h, List.find?_some h⟩

theorem any_id_map (l : List TabPage) (f : TabPage → TabPage)
    (hf : ∀ p, (f p).id = p.id) (i : Nat) :
    (l.map f).any (fun p => p.id = i) = l.any (fun p => p.id = i) := by
  rw [List.any_map]
  congr 1
  funext p
  simp [Function.comp, hf]

theorem has_page_set_title (tv : TabView) (pid : Nat) (t : String) (i : Nat) :
    (tv.set_title pid t).has_page i = tv.has_page i := by
  unfold set_title has_page
  exact any_id_map tv.pages _ (fun p => by by_cases h : p.id = pid <;> simp [h]) i

theorem has_page_set_page_pinned (tv : TabView) (pid : Nat) (b : Bool) (i : Nat) :
    (tv.set_page_pinned pid b).has_page i = tv.has_page i := by
  unfold set_page_pinned has_page
  exact any_id_map tv.pages _ (fun p => by by_cases h : p.id = pid <;> simp [h]) i

theorem has_page_set_selected_page (tv : TabView) (pid : Nat) (i : Nat) :
    (tv.set_selected_page pid).has_page i = tv.has_page i := by
  unfold set_selected_page has_page
  exact any_id_map tv.pages _ (fun p => by simp) i

theorem has_page_append (tv : TabView) (c : ContentBox) (i : Nat)
    (h : tv.has_page i = true) : ((tv.append c).1).has_page i = true := by
  unfold append has_page at *
  simp only [List.any_append]
  simp [h]

theorem id_unique (tv : TabView) (hwf : tv.WF) {p q : TabPage}
    (hp : p ∈ tv.pages) (hq : q ∈ tv.pages) (h : p.id = q.id) : p = q :=
  List.inj_on_of_nodup_map hwf.1 hp hq h

theorem find?_selected_map (l : List TabPage) (f : TabPage → TabPage)
    (hf : ∀ p, (f p).selected = p.selected) :
    (l.map f).find? (fun p => p.selected) =
      (l.find? (fun p => p.selected)).map f := by
  induction l with
  | nil => rfl
  | cons p ps ih =>
    by_cases h : p.selected
    · simp [List.find?_cons, hf, h]
    · simp only [List.map_cons, List.find?_cons, hf p, h]
      simpa using ih

theorem selected_page_set_page_pinned (tv : TabView) (pid : Nat) (b : Bool) :
    (tv.set_page_pinned pid b).selected_page =
      tv.selected_page.map (fun p =>
        if p.id = pid then { p with pinned := b } else p) := by
  unfold set_page_pinned selected_page
  exact find?_selected_map tv.pages _ (fun p => by by_cases h : p.id = pid <;> simp [h])

end TabView

theorem append_question_tab_eq (tv : TabView) (q : Question)
    (h : ∀ p ∈ tv.pages, p.id < tv.next_id) :
    append_question_tab tv q =
      { pages := tv.pages ++
          [{ id := tv.next_id, content := st_question q, title := q.title,
             pinned := false, selected := false }],
        next_id := tv.next_id + 1 } := by
  unfold append_question_tab TabView.append TabView.set_title
  simp only [TabView.mk.injEq, List.map_append, and_true]
  have hmap : tv.pages.map (fun p =>
      if p.id = tv.next_id then { p with title := q.title } else p) =
      tv.pages := by
    have h2 : tv.pages.map (fun p =>
        if p.id = tv.next_id then { p with title := q.title } else p) =
        tv.pages.map id := by
      apply List.map_congr_left
      intro p hp
      have hlt := h p hp
      simp [Nat.ne_of_lt hlt]
    rw [h2, List.map_id]
  rw [hmap]
  simp

theorem WF_append_question_tab (tv : TabView) (q : Question) (hwf : tv.WF) :
    (append_question_tab tv q).WF := by
  rw [append_question_tab_eq tv q hwf.2]
  constructor
  · dsimp only
    simp only [List.map_append, List.map_cons, List.map_nil]
    rw [List.nodup_append]
    refine ⟨hwf.1, List.nodup_singleton _, ?_⟩
    intro a ha hb
    simp only [List.mem_singleton] at hb
    subst hb
    rcases List.mem_map.mp ha with ⟨p, hp, hpe⟩
    have := hwf.2 p hp
    omega
  · dsimp only
    intro p hp
    rcases List.mem_append.mp hp with hp | hp
    · have := hwf.2 p hp
      omega
    · simp only [List.mem_singleton] at hp
      subst hp
      simp

theorem foldl_append_question_tab (qs : List Question) (tv : TabView)
    (hwf : tv.WF) :
    qs.foldl append_question_tab tv =
      { pages := tv.pages ++ fresh_pages tv.next_id qs,
        next_id := tv.next_id + qs.length } := by
  induction qs generalizing tv with
  | nil => simp [fresh_pages]
  | cons q qs ih =>
    rw [List.foldl_cons, ih _ (WF_append_question_tab tv q hwf),
      append_question_tab_eq tv q hwf.2]
    simp [fresh_pages, List.append_assoc]
    omega

theorem fresh_pages_length (n : Nat) (qs : List Question) :
    (fresh_pages n qs).length = qs.length := by
  induction qs generalizing n with
  | nil => rfl
  | cons q qs ih => simp [fresh_pages, ih]

theorem fresh_pages_titles (n : Nat) (qs : List Question) :
    (fresh_pages n qs).map (fun p => p.title) = qs.map (fun q => q.title) := by
  induction qs generalizing n with
  | nil => rfl
  | cons q qs ih => simp [fresh_pages, ih]

theorem fresh_pages_contents (n : Nat) (qs : List Question) :
    (fresh_pages n qs).map (fun p => p.content) = qs.map st_question := by
  induction qs generalizing n with
  | nil => rfl
  | cons q qs ih => simp [fresh_pages, ih]

theorem has_page_append_question_tab (tv : TabView) (q : Question) (i : Nat)
    (h : tv.has_page i = true) : (append_question_tab tv q).has_page i = true := by
  unfold append_question_tab
  rw [TabView.has_page_set_title]
  exact TabView.has_page_append tv _ i h

theorem has_page_foldl_append (qs : List Question) (tv : TabView) (i : Nat)
    (h : tv.has_page i = true) :
    (qs.foldl append_question_tab tv).has_page i = true := by
  induction qs generalizing tv with
  | nil => exact h
  | cons q qs ih => exact ih _ (has_page_append_question_tab tv q i h)

namespace TabView

theorem countP_selected_map (l : List TabPage) (f : TabPage → TabPage)
    (hf : ∀ p, (f p).selected = p.selected) :
    (l.map f).countP (fun p => p.selected) = l.countP (fun p => p.selected) := by
  rw [List.countP_map]
  congr 1
  funext p
  simp [Function.comp, hf]

theorem selCount_set_title (tv : TabView) (pid : Nat) (t : String) :
    (tv.set_title pid t).pages.countP (fun p => p.selected) =
      tv.pages.countP (fun p => p.selected) :=
  countP_selected_map tv.pages _ (fun p => by by_cases h : p.id = pid <;> simp [h])

theorem selCount_set_page_pinned (tv : TabView) (pid : Nat) (b : Bool) :
    (tv.set_page_pinned pid b).pages.countP (fun p => p.selected) =
      tv.pages.countP (fun p => p.selected) :=
  countP_selected_map tv.pages _ (fun p => by by_cases h : p.id = pid <;> simp [h])

theorem selCount_close_page (tv : TabView) (pid : Nat) :
    (tv.close_page pid).pages.countP (fun p => p.selected) ≤
      tv.pages.countP (fun p => p.selected) :=
  List.Sublist.countP_le _ (List.filter_sublist tv.pages)

theorem selCount_append (tv : TabView) (c : ContentBox) :
    ((tv.append c).1).pages.countP (fun p => p.selected) =
      tv.pages.countP (fun p => p.selected) := by
  unfold append
  simp [List.countP_append]

theorem countP_id_le_one (l : List TabPage)
    (hn : (l.map (fun p => p.id)).Nodup) (pid : Nat) :
    l.countP (fun p => p.id = pid) ≤ 1 := by
  induction l with
  | nil => simp
  | cons p ps ih =>
    rw [List.map_cons, List.nodup_cons] at hn
    rw [List.countP_cons]
    by_cases h : p.id = pid
    · have hz : ps.countP (fun p => p.id = pid) = 0 := by
        rw [List.countP_eq_zero]
        intro q hq
        simp only [decide_eq_true_eq]
        intro hq2
        exact hn.1 (List.mem_map.mpr ⟨q, hq, by omega⟩)
      simp [h, hz]
    · simpa [h] using ih hn.2

theorem AtMostOneSelected_set_selected_page (tv : TabView) (pid : Nat)
    (hwf : tv.WF) : (tv.set_selected_page pid).AtMostOneSelected := by
  unfold AtMostOneSelected set_selected_page
  simp only [List.countP_map]
  calc List.countP ((fun p => p.selected) ∘ fun p =>
          { p with selected := p.id = pid }) tv.pages
      = tv.pages.countP (fun p => p.id = pid) := by
        congr 1
    _ ≤ 1 := countP_id_le_one tv.pages hwf.1 pid

end TabView

theorem selCount_append_question_tab (tv : TabView) (q : Question) :
    (append_question_tab tv q).pages.countP (fun p => p.selected) =
      tv.pages.countP (fun p => p.selected) := by
  unfold append_question_tab
  rw [TabView.selCount_set_title, TabView.selCount_append]

theorem selCount_foldl_append (qs : List Question) (tv : TabView) :
    (qs.foldl append_question_tab tv).pages.countP (fun p => p.selected) =
      tv.pages.countP (fun p => p.selected) := by
  induction qs generalizing tv with
  | nil => rfl
  | cons q qs ih => rw [List.foldl_cons, ih, selCount_append_question_tab]

theorem model_update_with_view (fetch : Nat → String → Except String (List Question))
    (model : AppModel) (widgets : AppWidgets) (message : AppInput) :
    (update_with_view fetch model widgets message).model = model := by
  unfold update_with_view
  cases message <;> dsimp only <;> (repeat' split) <;> rfl

/-! ## Claim theorems -/

/-- Claim C2: for every `ClosePinnedTab` input with a selected tab, the
handler first sets the selected tab's pinned flag to false and only then
closes the tab: the resulting state is `close_page` applied to the view
produced by `set_page_pinned … false`, and in that intermediate view —
the one `close_page` is invoked on — the page being closed is unpinned. -/
theorem close_pinned_tab_unpins_before_close
    (fetch : Nat → String → Except String (List Question))
    (model : AppModel) (widgets : AppWidgets) (p : TabPage)
    (hsel : widgets.tab_view.selected_page = some p) :
    update_with_view fetch model widgets AppInput.ClosePinnedTab =
      StepOutcome.ok model
        { widgets with
          tab_view :=
            (widgets.tab_view.set_page_pinned p.id false).close_page p.id }
        Effects.none ∧
    ∀ q ∈ (widgets.tab_view.set_page_pinned p.id false).pages,
      q.id = p.id → q.pinned = false := by
  constructor
  · simp [update_with_view, hsel]
  · intro q hq hid
    unfold TabView.set_page_pinned at hq
    rcases List.mem_map.mp hq with ⟨r, hr, rfl⟩
    by_cases h : r.id = p.id
    · simp [h]
    · simp [h] at hid

/-- Claim C2 witness: evaluation on a concrete pinned selected tab. -/
theorem close_pinned_tab_unpins_before_close_witness :
    update_with_view fetch_failing AppModel.init (base_widgets sample_tv)
        AppInput.ClosePinnedTab =
      StepOutcome.ok AppModel.init
        { base_widgets sample_tv with
          tab_view :=
            ((base_widgets sample_tv).tab_view.set_page_pinned
                sample_page_pinned.id false).close_page sample_page_pinned.id }
        Effects.none ∧
    ({ sample_page_pinned with pinned := false } : TabPage).pinned = false :=
  have h := close_pinned_tab_unpins_before_close fetch_failing AppModel.init
    (base_widgets sample_tv) sample_page_pinned rfl
  ⟨h.1, h.2 { sample_page_pinned with pinned := false } (by decide) rfl⟩

/-- Claim C4: if the fetch fails for a `RequestPagesByUri` input, the
handler aborts at the `unwrap` (unrecovered propagation) and the widget
state at the abort is the original one: no tab was appended. -/
theorem fetch_error_aborts_without_append
    (fetch : Nat → String → Except String (List Question))
    (model : AppModel) (widgets : AppWidgets) (uri e : String)
    (h : fetch model.stackexchange_client uri = Except.error e) :
    update_with_view fetch model widgets (AppInput.RequestPagesByUri uri) =
      StepOutcome.aborted model widgets ∧
    (update_with_view fetch model widgets
        (AppInput.RequestPagesByUri uri)).tabView = widgets.tab_view := by
  refine ⟨?_, ?_⟩ <;> simp [update_with_view, h, StepOutcome.tabView]

/-- Claim C4 witness: evaluation with a concrete failing fetch. -/
theorem fetch_error_aborts_without_append_witness :
    update_with_view fetch_failing AppModel.init (base_widgets sample_tv)
        (AppInput.RequestPagesByUri "stackexchange://stackoverflow/q") =
      StepOutcome.aborted AppModel.init (base_widgets sample_tv) ∧
    (update_with_view fetch_failing AppModel.init (base_widgets sample_tv)
        (AppInput.RequestPagesByUri "stackexchange://stackoverflow/q")).tabView =
      (base_widgets sample_tv).tab_view :=
  fetch_error_aborts_without_append fetch_failing AppModel.init
    (base_widgets sample_tv) "stackexchange://stackoverflow/q"
    "connection failed" rfl

/-- Claim C8: activating the search entry with text `t` sends exactly one
`RequestPagesByUri` input whose URI is `"stackexchange://stackoverflow/"`
concatenated with `t`, and afterwards the entry text is empty (the handler
deletes the first `t.len()` byte-length positions, which is at least the
character count of `t`). -/
theorem search_activate_sends_request_and_clears (t : String) :
    (search_entry_activate t).1 =
      [AppInput.RequestPagesByUri ("stackexchange://stackoverflow/" ++ t)] ∧
    (search_entry_activate t).2 = "" := by
  constructor
  · rfl
  · unfold search_entry_activate delete_text
    simp only
    have h := length_le_utf8ByteSize t
    rw [List.take_zero, List.nil_append, List.drop_eq_nil_of_le h]

/-- Claim C9: each of the `ToggleSelectedTabPin`, `CloseTab` and
`ClosePinnedTab` handlers starts with `selected_page().unwrap()`: when no
page is selected the handler aborts with the tab state unchanged, and when
a page is selected the unwrap cannot fail and the handler completes. -/
theorem selected_tab_handlers_require_selection
    (fetch : Nat → String → Except String (List Question))
    (model : AppModel) (widgets : AppWidgets) (msg : AppInput)
    (hmsg : msg = AppInput.ToggleSelectedTabPin ∨ msg = AppInput.CloseTab ∨
      msg = AppInput.ClosePinnedTab) :
    (widgets.tab_view.selected_page = none →
       update_with_view fetch model widgets msg =
         StepOutcome.aborted model widgets) ∧
    (widgets.tab_view.selected_page.isSome = true →
       (update_with_view fetch model widgets msg).isOk = true) := by
  rcases hmsg with h | h | h <;> subst h <;> constructor <;>
    intro hs
  case' inl.right | inr.inl.right | inr.inr.right =>
    rcases Option.isSome_iff_exists.mp hs with ⟨p, hp⟩
  case inl.left | inr.inl.left | inr.inr.left =>
    simp [update_with_view, hs]
  case inl.right | inr.inr.right =>
    simp [update_with_view, hp, StepOutcome.isOk]
  case inr.inl.right =>
    by_cases hpin : p.pinned <;>
      simp [update_with_view, hp, hpin, StepOutcome.isOk]

/-- Claim C9 witness: with no selected tab `CloseTab` aborts and changes
nothing; with a selected tab it completes. -/
theorem selected_tab_handlers_require_selection_witness :
    (update_with_view fetch_failing AppModel.init
        (base_widgets sample_tv_empty) AppInput.CloseTab =
      StepOutcome.aborted AppModel.init (base_widgets sample_tv_empty)) ∧
    ((update_with_view fetch_failing AppModel.init
        (base_widgets sample_tv) AppInput.CloseTab).isOk = true) :=
  ⟨(selected_tab_handlers_require_selection fetch_failing AppModel.init
      (base_widgets sample_tv_empty) AppInput.CloseTab
      (Or.inr (Or.inl rfl))).1 rfl,
   (selected_tab_handlers_require_selection fetch_failing AppModel.init
      (base_widgets sample_tv) AppInput.CloseTab
      (Or.inr (Or.inl rfl))).2 rfl⟩

theorem model_run (fetch : Nat → String → Except String (List Question))
    (model : AppModel) (widgets : AppWidgets) (msgs : List AppInput) :
    (run fetch model widgets msgs).model = model := by
  induction msgs generalizing model widgets with
  | nil => rfl
  | cons msg rest ih =>
    have hstep := model_update_with_view fetch model widgets msg
    cases h : update_with_view fetch model widgets msg with
    | ok m w eff =>
      rw [h] at hstep
      simp only [run, h]
      rw [ih m w]
      simpa [StepOutcome.model] using hstep
    | aborted m w =>
      rw [h] at hstep
      simp only [run, h]
      simpa [StepOutcome.model] using hstep

/-- Claim C7: the application state holds exactly one client handle: `init`
creates the single `StackExchange::new()` client, no handler (nor any run of
handlers) replaces or drops it, and the dispatch depends on the fetch
operation only through its behaviour at that one stored handle, so the same
client services every `RequestPagesByUri` fetch. -/
theorem single_client_serves_all_fetches
    (fetch fetch2 : Nat → String → Except String (List Question))
    (model : AppModel) (widgets : AppWidgets) (msg : AppInput)
    (msgs : List AppInput) :
    AppModel.init.stackexchange_client = StackExchange.new ∧
    (update_with_view fetch model widgets msg).model = model ∧
    (run fetch model widgets msgs).model = model ∧
    ((∀ uri, fetch model.stackexchange_client uri =
        fetch2 model.stackexchange_client uri) →
      update_with_view fetch model widgets msg =
        update_with_view fetch2 model widgets msg) := by
  refine ⟨rfl, model_update_with_view fetch model widgets msg,
    model_run fetch model widgets msgs, ?_⟩
  intro hext
  unfold update_with_view
  cases msg <;> first
    | rfl
    | (dsimp only; rw [hext])

/-- Claim C7 witness: evaluation on a concrete state and input run. -/
theorem single_client_serves_all_fetches_witness :
    AppModel.init.stackexchange_client = StackExchange.new ∧
    (update_with_view fetch_two AppModel.init (base_widgets sample_tv)
        (AppInput.RequestPagesByUri "u")).model = AppModel.init ∧
    (run fetch_two AppModel.init (base_widgets sample_tv)
        [AppInput.RequestPagesByUri "u", AppInput.Quit]).model = AppModel.init ∧
    update_with_view fetch_two AppModel.init (base_widgets sample_tv)
        (AppInput.RequestPagesByUri "u") =
      update_with_view fetch_two AppModel.init (base_widgets sample_tv)
        (AppInput.RequestPagesByUri "u") :=
  have h := single_client_serves_all_fetches fetch_two fetch_two AppModel.init
    (base_widgets sample_tv) (AppInput.RequestPagesByUri "u")
    [AppInput.RequestPagesByUri "u", AppInput.Quit]
  ⟨h.1, h.2.1, h.2.2.1, h.2.2.2 (fun _ => rfl)⟩

theorem set_page_pinned_cancel (tv : TabView) (p : TabPage)
    (hwf : tv.WF) (hp : p ∈ tv.pages) (b : Bool) :
    (tv.set_page_pinned p.id b).set_page_pinned p.id p.pinned = tv := by
  unfold TabView.set_page_pinned
  simp only [List.map_map]
  have hcomp : tv.pages.map
      ((fun q => if q.id = p.id then { q with pinned := p.pinned } else q) ∘
        (fun q => if q.id = p.id then { q with pinned := b } else q)) =
      tv.pages.map id := by
    apply List.map_congr_left
    intro q hq
    by_cases h : q.id = p.id
    · have hqp : q = p := TabView.id_unique tv hwf hq hp h
      subst hqp
      simp
    · simp [Function.comp, h]
  rw [hcomp, List.map_id]

/-- Claim C10: `ToggleSelectedTabPin` is an involution on the selected
tab's pinned flag: one input negates the flag of the selected page, and a
second input with no intervening message restores the original widget
state, pinned flag included. -/
theorem toggle_selected_tab_pin_involution
    (fetch : Nat → String → Except String (List Question))
    (model : AppModel) (widgets : AppWidgets) (p : TabPage)
    (hwf : widgets.tab_view.WF)
    (hsel : widgets.tab_view.selected_page = some p) :
    update_with_view fetch model widgets AppInput.ToggleSelectedTabPin =
      StepOutcome.ok model
        { widgets with
          tab_view := widgets.tab_view.set_page_pinned p.id (!p.pinned) }
        Effects.none ∧
    (widgets.tab_view.set_page_pinned p.id (!p.pinned)).selected_page =
      some { p with pinned := !p.pinned } ∧
    update_with_view fetch model
      { widgets with
        tab_view := widgets.tab_view.set_page_pinned p.id (!p.pinned) }
      AppInput.ToggleSelectedTabPin =
      StepOutcome.ok model widgets Effects.none := by
  have hsel1 : (widgets.tab_view.set_page_pinned p.id (!p.pinned)).selected_page =
      some { p with pinned := !p.pinned } := by
    rw [TabView.selected_page_set_page_pinned, hsel]
    simp
  refine ⟨by simp [update_with_view, hsel], hsel1, ?_⟩
  have hmem : p ∈ widgets.tab_view.pages := (TabView.selected_page_mem hsel).1
  have hcancel := set_page_pinned_cancel widgets.tab_view p hwf hmem (!p.pinned)
  simp only [update_with_view, hsel1]
  simp only [Bool.not_not]
  rw [hcancel]

/-- Claim C10 witness: evaluation on a concrete selected pinned tab. -/
theorem toggle_selected_tab_pin_involution_witness :
    update_with_view fetch_failing AppModel.init (base_widgets sample_tv)
        AppInput.ToggleSelectedTabPin =
      StepOutcome.ok AppModel.init
        { base_widgets sample_tv with
          tab_view :=
            (base_widgets sample_tv).tab_view.set_page_pinned
              sample_page_pinned.id (!sample_page_pinned.pinned) }
        Effects.none ∧
    ((base_widgets sample_tv).tab_view.set_page_pinned sample_page_pinned.id
        (!sample_page_pinned.pinned)).selected_page =
      some { sample_page_pinned with pinned := !sample_page_pinned.pinned } ∧
    update_with_view fetch_failing AppModel.init
      { base_widgets sample_tv with
        tab_view :=
          (base_widgets sample_tv).tab_view.set_page_pinned
            sample_page_pinned.id (!sample_page_pinned.pinned) }
      AppInput.ToggleSelectedTabPin =
      StepOutcome.ok AppModel.init (base_widgets sample_tv) Effects.none :=
  toggle_selected_tab_pin_involution fetch_failing AppModel.init
    (base_widgets sample_tv) sample_page_pinned (by decide) rfl

theorem has_page_of_mem {tv : TabView} {q : TabPage} (hq : q ∈ tv.pages) :
    tv.has_page q.id = true := by
  unfold TabView.has_page
  exact List.any_eq_true.mpr ⟨q, hq, by simp⟩

theorem has_page_close_page_of_ne {tv : TabView} {q : TabPage} {pid : Nat}
    (hq : q ∈ tv.pages) (hne : q.id ≠ pid) :
    (tv.close_page pid).has_page q.id = true := by
  unfold TabView.close_page TabView.has_page
  exact List.any_eq_true.mpr
    ⟨q, List.mem_filter.mpr ⟨hq, by simpa using hne⟩, by simp⟩

/-- Claim C1: the `CloseTab` handler never closes a pinned selected tab
directly: it leaves the state unchanged and only shows the confirmation
dialog; the dialog's response closure sends `ClosePinnedTab` exactly for
the "yes" response; and no input other than `ClosePinnedTab` ever removes
a pinned tab from the view, so a pinned tab is closed only through that
confirmed path. -/
theorem close_tab_pinned_needs_confirmation
    (fetch : Nat → String → Except String (List Question))
    (model : AppModel) (widgets : AppWidgets) (p : TabPage)
    (hsel : widgets.tab_view.selected_page = some p)
    (hpin : p.pinned = true) :
    update_with_view fetch model widgets AppInput.CloseTab =
      StepOutcome.ok model widgets
        { Effects.none with dialogs := [close_pinned_dialog] } ∧
    (∀ r : String,
       (dialog_response r).1 = [AppInput.ClosePinnedTab] ↔ r = "yes") ∧
    (∀ (w : AppWidgets) (msg : AppInput), w.tab_view.WF →
       msg ≠ AppInput.ClosePinnedTab →
       ∀ q ∈ w.tab_view.pages, q.pinned = true →
         (update_with_view fetch model w msg).tabView.has_page q.id = true) := by
  refine ⟨by simp [update_with_view, hsel, hpin], ?_, ?_⟩
  · intro r
    unfold dialog_response
    by_cases h : r = "yes" <;> simp [h]
  · intro w msg hwf hne q hq hqpin
    cases msg with
    | RequestPagesByUri uri =>
      cases h : fetch model.stackexchange_client uri with
      | error e =>
        simp only [update_with_view, h, StepOutcome.tabView]
        exact has_page_of_mem hq
      | ok qs =>
        simp only [update_with_view, h, StepOutcome.tabView]
        exact has_page_foldl_append qs w.tab_view q.id (has_page_of_mem hq)
    | ToggleSearchEntry =>
      by_cases h : w.search_button_active <;>
        simp only [update_with_view, h, if_true, if_false, Bool.false_eq_true,
          StepOutcome.tabView] <;>
        exact has_page_of_mem hq
    | ShowAboutWindow =>
      exact has_page_of_mem hq
    | Quit =>
      exact has_page_of_mem hq
    | ToggleSelectedTabPin =>
      cases h : w.tab_view.selected_page with
      | none =>
        simp only [update_with_view, h, StepOutcome.tabView]
        exact has_page_of_mem hq
      | some sel =>
        simp only [update_with_view, h, StepOutcome.tabView]
        rw [TabView.has_page_set_page_pinned]
        exact has_page_of_mem hq
    | CloseTab =>
      cases h : w.tab_view.selected_page with
      | none =>
        simp only [update_with_view, h, StepOutcome.tabView]
        exact has_page_of_mem hq
      | some sel =>
        by_cases hb : sel.pinned
        · simp only [update_with_view, h, hb, if_true, StepOutcome.tabView]
          exact has_page_of_mem hq
        · simp only [update_with_view, h, hb, if_false, Bool.false_eq_true,
            StepOutcome.tabView]
          have hselmem := TabView.selected_page_mem h
          have hneq : q.id ≠ sel.id := by
            intro hid
            have : q = sel := TabView.id_unique w.tab_view hwf hq hselmem.1 hid
            rw [this] at hqpin
            rw [hqpin] at hb
            exact hb rfl
          exact has_page_close_page_of_ne hq hneq
    | ClosePinnedTab =>
      exact absurd rfl hne

/-- Claim C1 witness: evaluation on a concrete pinned selected tab. -/
theorem close_tab_pinned_needs_confirmation_witness :
    update_with_view fetch_failing AppModel.init (base_widgets sample_tv)
        AppInput.CloseTab =
      StepOutcome.ok AppModel.init (base_widgets sample_tv)
        { Effects.none with dialogs := [close_pinned_dialog] } ∧
    ((dialog_response "yes").1 = [AppInput.ClosePinnedTab] ↔ "yes" = "yes") ∧
    ((dialog_response "no").1 = [AppInput.ClosePinnedTab] ↔ "no" = "yes") ∧
    (update_with_view fetch_failing AppModel.init (base_widgets sample_tv)
        AppInput.ToggleSearchEntry).tabView.has_page sample_page_pinned.id =
      true :=
  have h := close_tab_pinned_needs_confirmation fetch_failing AppModel.init
    (base_widgets sample_tv) sample_page_pinned rfl rfl
  ⟨h.1, h.2.1 "yes", h.2.1 "no",
   h.2.2 (base_widgets sample_tv) AppInput.ToggleSearchEntry (by decide)
     (by decide) sample_page_pinned (by decide) rfl⟩

/-- Claim C3: when the fetch for a `RequestPagesByUri` input succeeds with
`qs`, the handler appends exactly `qs.length` new tabs at the end of the
tab view, one per returned question in list order, each holding that
question's rendered content and titled with that question's title. -/
theorem request_pages_appends_one_tab_per_question
    (fetch : Nat → String → Except String (List Question))
    (model : AppModel) (widgets : AppWidgets) (uri : String)
    (qs : List Question)
    (hwf : widgets.tab_view.WF)
    (hfetch : fetch model.stackexchange_client uri = Except.ok qs) :
    update_with_view fetch model widgets (AppInput.RequestPagesByUri uri) =
      StepOutcome.ok model
        { widgets with
          tab_view :=
            { pages := widgets.tab_view.pages ++
                fresh_pages widgets.tab_view.next_id qs,
              next_id := widgets.tab_view.next_id + qs.length } }
        Effects.none ∧
    (fresh_pages widgets.tab_view.next_id qs).length = qs.length ∧
    (fresh_pages widgets.tab_view.next_id qs).map (fun p => p.title) =
      qs.map (fun q => q.title) ∧
    (fresh_pages widgets.tab_view.next_id qs).map (fun p => p.content) =
      qs.map st_question := by
  refine ⟨?_, fresh_pages_length _ _, fresh_pages_titles _ _,
    fresh_pages_contents _ _⟩
  simp [update_with_view, hfetch,
    foldl_append_question_tab qs widgets.tab_view hwf]

/-- Claim C3 witness: a concrete fetch returning two questions appends two
titled tabs. -/
theorem request_pages_appends_one_tab_per_question_witness :
    update_with_view fetch_two AppModel.init (base_widgets sample_tv)
        (AppInput.RequestPagesByUri "stackexchange://stackoverflow/q") =
      StepOutcome.ok AppModel.init
        { base_widgets sample_tv with
          tab_view :=
            { pages := (base_widgets sample_tv).tab_view.pages ++
                fresh_pages (base_widgets sample_tv).tab_view.next_id
                  [sample_q1, sample_q2],
              next_id := (base_widgets sample_tv).tab_view.next_id + 2 } }
        Effects.none ∧
    (fresh_pages (base_widgets sample_tv).tab_view.next_id
        [sample_q1, sample_q2]).map (fun p => p.title) =
      [sample_q1, sample_q2].map (fun q => q.title) :=
  have h := request_pages_appends_one_tab_per_question fetch_two AppModel.init
    (base_widgets sample_tv) "stackexchange://stackoverflow/q"
    [sample_q1, sample_q2] (by decide) rfl
  ⟨h.1, h.2.2.1⟩

theorem has_page_close_page (tv : TabView) (pid i : Nat) :
    (tv.close_page pid).has_page i = (tv.has_page i && !(decide (i = pid))) := by
  unfold TabView.close_page TabView.has_page
  rw [Bool.eq_iff_iff]
  simp only [Bool.and_eq_true, Bool.not_eq_true', decide_eq_false_iff_not,
    List.any_eq_true, List.mem_filter, decide_eq_true_eq, ne_eq]
  constructor
  · rintro ⟨q, ⟨hq, hqne⟩, hqi⟩
    refine ⟨⟨q, hq, hqi⟩, ?_⟩
    rw [← hqi]
    exact hqne
  · rintro ⟨⟨q, hq, hqi⟩, hne⟩
    refine ⟨q, ⟨hq, ?_⟩, hqi⟩
    rw [hqi]
    exact hne

theorem countP_id_eq_one (tv : TabView) (p : TabPage)
    (hwf : tv.WF) (hp : p ∈ tv.pages) :
    tv.pages.countP (fun q => q.id = p.id) = 1 := by
  refine Nat.le_antisymm (TabView.countP_id_le_one tv.pages hwf.1 p.id) ?_
  exact List.countP_pos_iff.mpr ⟨p, hp, by simp⟩

theorem length_close_page (tv : TabView) (p : TabPage)
    (hwf : tv.WF) (hp : p ∈ tv.pages) :
    (tv.close_page p.id).pages.length + 1 = tv.pages.length := by
  unfold TabView.close_page
  dsimp only
  rw [← List.countP_eq_length_filter]
  have hsplit := List.length_eq_countP_add_countP
    (fun q => q.id ≠ p.id) (l := tv.pages)
  have hcongr : tv.pages.countP (fun a => decide ¬((fun q =>
      decide (q.id ≠ p.id)) a = true)) =
      tv.pages.countP (fun q => q.id = p.id) := by
    apply List.countP_congr
    intro q _
    simp
  rw [hcongr, countP_id_eq_one tv p hwf hp] at hsplit
  omega

/-- Claim C5: tabs are destroyed only by user-initiated close: for every
input other than `CloseTab` and `ClosePinnedTab` no existing tab is removed
from the view, and `CloseTab` with a non-pinned selected tab closes exactly
that tab — the result is the original view minus the selected page, one
page shorter, with a page surviving precisely when its identity differs
from the closed one. -/
theorem tabs_removed_only_by_user_close
    (fetch : Nat → String → Except String (List Question))
    (model : AppModel) :
    (∀ (w : AppWidgets) (msg : AppInput),
       msg ≠ AppInput.CloseTab → msg ≠ AppInput.ClosePinnedTab →
       ∀ i : Nat, w.tab_view.has_page i = true →
         (update_with_view fetch model w msg).tabView.has_page i = true) ∧
    (∀ (w : AppWidgets) (p : TabPage), w.tab_view.WF →
       w.tab_view.selected_page = some p → p.pinned = false →
       update_with_view fetch model w AppInput.CloseTab =
         StepOutcome.ok model
           { w with tab_view := w.tab_view.close_page p.id } Effects.none ∧
       (∀ i : Nat, (w.tab_view.close_page p.id).has_page i =
          (w.tab_view.has_page i && !(decide (i = p.id)))) ∧
       (w.tab_view.close_page p.id).pages.length + 1 =
         w.tab_view.pages.length) := by
  constructor
  · intro w msg hct hcpt i hi
    cases msg with
    | RequestPagesByUri uri =>
      cases h : fetch model.stackexchange_client uri with
      | error e =>
        simpa only [update_with_view, h, StepOutcome.tabView] using hi
      | ok qs =>
        simp only [update_with_view, h, StepOutcome.tabView]
        exact has_page_foldl_append qs w.tab_view i hi
    | ToggleSearchEntry =>
      by_cases h : w.search_button_active <;>
        simpa only [update_with_view, h, if_true, if_false, Bool.false_eq_true,
          StepOutcome.tabView] using hi
    | ShowAboutWindow => exact hi
    | Quit => exact hi
    | ToggleSelectedTabPin =>
      cases h : w.tab_view.selected_page with
      | none =>
        simpa only [update_with_view, h, StepOutcome.tabView] using hi
      | some sel =>
        simp only [update_with_view, h, StepOutcome.tabView]
        rw [TabView.has_page_set_page_pinned]
        exact hi
    | CloseTab => exact absurd rfl hct
    | ClosePinnedTab => exact absurd rfl hcpt
  · intro w p hwf hsel hpin
    refine ⟨by simp [update_with_view, hsel, hpin], ?_, ?_⟩
    · intro i
      exact has_page_close_page w.tab_view p.id i
    · exact length_close_page w.tab_view p hwf (TabView.selected_page_mem hsel).1

/-- Claim C5 witness: `ToggleSelectedTabPin` keeps every tab, and `CloseTab`
on a concrete non-pinned selected tab removes exactly that tab. -/
theorem tabs_removed_only_by_user_close_witness :
    (update_with_view fetch_failing AppModel.init
        (base_widgets sample_tv) AppInput.ToggleSelectedTabPin).tabView.has_page
        sample_page_plain.id = true ∧
    update_with_view fetch_failing AppModel.init (base_widgets sample_tv_plain)
        AppInput.CloseTab =
      StepOutcome.ok AppModel.init
        { base_widgets sample_tv_plain with
          tab_view := (base_widgets sample_tv_plain).tab_view.close_page
            ({ sample_page_plain with selected := true } : TabPage).id }
        Effects.none ∧
    ((base_widgets sample_tv_plain).tab_view.close_page
        ({ sample_page_plain with selected := true } : TabPage).id).pages.length +
      1 = (base_widgets sample_tv_plain).tab_view.pages.length :=
  have ha := tabs_removed_only_by_user_close fetch_failing AppModel.init
  have hb := ha.2 (base_widgets sample_tv_plain)
    { sample_page_plain with selected := true } (by decide) rfl rfl
  ⟨ha.1 (base_widgets sample_tv) AppInput.ToggleSelectedTabPin
      (by decide) (by decide) sample_page_plain.id (by decide),
   hb.1, hb.2.2⟩

/-- Claim C6: at most one tab is selected at any time: every handler of the
shell preserves the at-most-one-selected-page invariant of the tab view,
and the `setup_menu` closure — which moves the selection to the
right-clicked page — preserves it as well. -/
theorem at_most_one_tab_selected
    (fetch : Nat → String → Except String (List Question))
    (model : AppModel) :
    (∀ (w : AppWidgets) (msg : AppInput), w.tab_view.AtMostOneSelected →
       (update_with_view fetch model w msg).tabView.AtMostOneSelected) ∧
    (∀ (tv : TabView) (page : Option Nat), tv.WF → tv.AtMostOneSelected →
       (setup_menu tv page).AtMostOneSelected) := by
  constructor
  · intro w msg h
    unfold TabView.AtMostOneSelected at h ⊢
    cases msg with
    | RequestPagesByUri uri =>
      cases hf : fetch model.stackexchange_client uri with
      | error e =>
        simpa only [update_with_view, hf, StepOutcome.tabView] using h
      | ok qs =>
        simp only [update_with_view, hf, StepOutcome.tabView]
        rw [selCount_foldl_append]
        exact h
    | ToggleSearchEntry =>
      by_cases hb : w.search_button_active <;>
        simpa only [update_with_view, hb, if_true, if_false,
          Bool.false_eq_true, StepOutcome.tabView] using h
    | ShowAboutWindow => exact h
    | Quit => exact h
    | ToggleSelectedTabPin =>
      cases hs : w.tab_view.selected_page with
      | none =>
        simpa only [update_with_view, hs, StepOutcome.tabView] using h
      | some sel =>
        simp only [update_with_view, hs, StepOutcome.tabView]
        rw [TabView.selCount_set_page_pinned]
        exact h
    | CloseTab =>
      cases hs : w.tab_view.selected_page with
      | none =>
        simpa only [update_with_view, hs, StepOutcome.tabView] using h
      | some sel =>
        by_cases hb : sel.pinned
        · simpa only [update_with_view, hs, hb, if_true,
            StepOutcome.tabView] using h
        · simp only [update_with_view, hs, hb, if_false, Bool.false_eq_true,
            StepOutcome.tabView]
          exact le_trans (TabView.selCount_close_page w.tab_view sel.id) h
    | ClosePinnedTab =>
      cases hs : w.tab_view.selected_page with
      | none =>
        simpa only [update_with_view, hs, StepOutcome.tabView] using h
      | some sel =>
        simp only [update_with_view, hs, StepOutcome.tabView]
        refine le_trans (TabView.selCount_close_page _ sel.id) ?_
        rw [TabView.selCount_set_page_pinned]
        exact h
  · intro tv page hwf h
    cases page with
    | none => exact h
    | some pid => exact TabView.AtMostOneSelected_set_selected_page tv pid hwf

/-- Claim C6 witness: preservation evaluated on a concrete view, and the
setup-menu closure on a concrete right-clicked page. -/
theorem at_most_one_tab_selected_witness :
    (update_with_view fetch_failing AppModel.init (base_widgets sample_tv)
        AppInput.ToggleSelectedTabPin).tabView.AtMostOneSelected ∧
    (setup_menu sample_tv (some 1)).AtMostOneSelected :=
  have h := at_most_one_tab_selected fetch_failing AppModel.init
  ⟨h.1 (base_widgets sample_tv) AppInput.ToggleSelectedTabPin (by decide),
   h.2 sample_tv (some 1) (by decide) (by decide)⟩

/-- Claim C8 witness: evaluation on a concrete search term. -/
theorem search_activate_sends_request_and_clears_witness :
    (search_entry_activate "borrow checker").1 =
      [AppInput.RequestPagesByUri
        ("stackexchange://stackoverflow/" ++ "borrow checker")] ∧
    (search_entry_activate "borrow checker").2 = "" :=
  search_activate_sends_request_and_clears "borrow checker"
